import Mathlib

/-!
Verification of the adaptive polling scheduler of the loopy-web repository.

The development shallowly embeds the two scheduler implementations that the
specification describes:

* `SmartPollingAnalyzer` from src/utils/smartPolling.ts (the class at the top
  of the file): interval estimation by median of band-filtered recent gaps,
  confidence scoring by coefficient of variation, and the polling-strategy
  selector.
* the `useSmartPolling` hook from src/hooks/useSmartPolling.ts: interval
  estimation by rounded mean of band-filtered recent gaps, the staleness
  correction and delay computation of `scheduleNextUpdate`, and the timer
  discipline (`clearTimers` / arm / fire) modelled as a small state machine.

Timestamps are modelled as exact rationals (milliseconds since the epoch, the
value of `Date.getTime()`); JavaScript float arithmetic on these magnitudes is
exact except for `Math.sqrt`, which is idealised as `Real.sqrt`.
-/

namespace LoopyWeb

/-- One CGM reading; the scheduler code only ever reads the timestamp
(`new Date(r.timestamp).getTime()`, in milliseconds), `sgv` is the glucose
value carried along. -/
structure CGMReading where
  timestamp : ℚ
  sgv : ℚ
deriving DecidableEq

/-- The comparator `(a, b) => new Date(b.timestamp) - new Date(a.timestamp)`:
most recent first. -/
def byTimeDesc (a b : CGMReading) : Prop := b.timestamp ≤ a.timestamp

instance : DecidableRel byTimeDesc := fun a b =>
  inferInstanceAs (Decidable (b.timestamp ≤ a.timestamp))

instance : IsTotal CGMReading byTimeDesc :=
  ⟨fun a b => le_total b.timestamp a.timestamp⟩

instance : IsTrans CGMReading byTimeDesc :=
  ⟨fun _ _ _ h1 h2 => le_trans h2 h1⟩

/-- `[...readings].sort((a, b) => b.timestamp - a.timestamp)`: a stable sort by
descending timestamp (JavaScript sort is stable; insertion sort is a stable
sort, and stable-sorted output is unique for a total preorder). -/
def sortByTimeDesc (readings : List CGMReading) : List CGMReading :=
  readings.insertionSort byTimeDesc

/-- The gaps between consecutive entries of a list: element `i` minus
element `i+1`. -/
def adjacentGaps (l : List CGMReading) : List ℚ :=
  (l.zip l.tail).map (fun p => p.1.timestamp - p.2.timestamp)

/-- The middle of a list: the element at index `floor (length / 2)`, or for an
even length the mean of the two elements around the middle. -/
def middleOf (l : List ℚ) : ℚ :=
  if l.length % 2 = 0 then (l.getD (l.length / 2 - 1) 0 + l.getD (l.length / 2) 0) / 2
  else l.getD (l.length / 2) 0

/-- The median of a list of rationals: the middle of its ascending sort
(`intervals.sort((a, b) => a - b)` followed by the mid-index selection in
`getAverageInterval`). -/
def median (l : List ℚ) : ℚ :=
  middleOf (l.insertionSort (· ≤ ·))

namespace SmartPollingAnalyzer

/-- `DEFAULT_CGM_INTERVAL = 5 * 60 * 1000`. -/
def DEFAULT_CGM_INTERVAL : ℚ := 5 * 60 * 1000

/-- `INTENSIVE_POLLING = 45 * 1000`. -/
def INTENSIVE_POLLING : ℚ := 45 * 1000

/-- `NORMAL_POLLING = 5 * 60 * 1000`. -/
def NORMAL_POLLING : ℚ := 5 * 60 * 1000

/-- `INTENSIVE_WINDOW = 2 * 60 * 1000`. -/
def INTENSIVE_WINDOW : ℚ := 2 * 60 * 1000

/-- The loop `for (i = 0; i < Math.min(5, sorted.length - 1); i++)` computes
the gaps between the most recent 5 pairs of consecutive readings. -/
def recentGaps (readings : List CGMReading) : List ℚ :=
  (adjacentGaps (sortByTimeDesc readings)).take 5

/-- The band filter on one gap:
`interval >= 3 * 60 * 1000 && interval <= 8 * 60 * 1000`. -/
def isPlausible (g : ℚ) : Bool :=
  decide (3 * 60 * 1000 ≤ g) && decide (g ≤ 8 * 60 * 1000)

/-- The gaps that get pushed onto `intervals` in `getAverageInterval`: the
recent gaps surviving the 3-to-8-minute band filter. -/
def filteredRecentGaps (readings : List CGMReading) : List ℚ :=
  (recentGaps readings).filter isPlausible

/-- `SmartPollingAnalyzer.getAverageInterval`: fewer than 2 readings or no
surviving gap gives the default; otherwise the median of the surviving gaps
(`intervals.sort(); mid = floor(len / 2)`, mean of the two middle elements
when the count is even). -/
def getAverageInterval (readings : List CGMReading) : ℚ :=
  if readings.length < 2 then DEFAULT_CGM_INTERVAL
  else if (filteredRecentGaps readings).length = 0 then DEFAULT_CGM_INTERVAL
  else median (filteredRecentGaps readings)

/-- The mean `intervals.reduce((a, b) => a + b, 0) / intervals.length` used by
`calculateConfidence` (and, in the hook, by `calculateReadingInterval`). -/
def gapsMean (l : List ℚ) : ℚ := l.sum / l.length

/-- The variance
`intervals.reduce((sum, i) => sum + Math.pow(i - mean, 2), 0) / intervals.length`
used by `calculateConfidence`. -/
def gapsVariance (l : List ℚ) : ℚ :=
  (l.map (fun x => (x - gapsMean l) ^ 2)).sum / l.length

/-- `SmartPollingAnalyzer.calculateConfidence`: 0.5 below 3 readings,
otherwise `Math.max(0.2, Math.min(1, 1 - stdDev / mean))` where the
coefficient of variation is computed over the recent gaps WITHOUT the band
filter (the loop in `calculateConfidence` pushes every interval). -/
noncomputable def calculateConfidence (readings : List CGMReading) : ℝ :=
  if readings.length < 3 then 0.5
  else if (recentGaps readings).length = 0 then 0.5
  else
    max 0.2 (min 1 (1 -
      Real.sqrt ((gapsVariance (recentGaps readings) : ℚ) : ℝ) /
        ((gapsMean (recentGaps readings) : ℚ) : ℝ)))

/-- The result record of `predictNextReading`. -/
structure Prediction where
  time : Option ℚ
  confidence : ℝ

/-- `SmartPollingAnalyzer.predictNextReading`: null time and zero confidence
on an empty history, otherwise most recent timestamp plus the estimated
interval, paired with the confidence score. No staleness correction is
applied here. -/
noncomputable def predictNextReading (readings : List CGMReading) : Prediction :=
  if readings.length = 0 then ⟨none, 0⟩
  else
    ⟨some (((sortByTimeDesc readings).headD ⟨0, 0⟩).timestamp +
        getAverageInterval readings),
      calculateConfidence readings⟩

/-- The two polling modes of the strategy record. -/
inductive Mode where
  | normal
  | intensive
deriving DecidableEq

/-- The `PollingStrategy` record returned by `getPollingStrategy`. -/
structure PollingStrategy where
  nextInterval : ℚ
  mode : Mode
  nextExpectedReading : Option ℚ
  confidence : ℝ

/-- `SmartPollingAnalyzer.getPollingStrategy`, with the wall clock
`new Date()` passed explicitly as `now`: normal polling when there is no
predicted time or confidence is below 0.3; intensive polling when the
predicted time is within `INTENSIVE_WINDOW` of `now` in either direction;
normal polling otherwise. -/
noncomputable def getPollingStrategy (readings : List CGMReading) (now : ℚ) :
    PollingStrategy :=
  let p := predictNextReading readings
  match p.time with
  | none => ⟨NORMAL_POLLING, Mode.normal, p.time, p.confidence⟩
  | some t =>
    if p.confidence < 0.3 then ⟨NORMAL_POLLING, Mode.normal, p.time, p.confidence⟩
    else if |t - now| ≤ INTENSIVE_WINDOW then
      ⟨INTENSIVE_POLLING, Mode.intensive, p.time, p.confidence⟩
    else ⟨NORMAL_POLLING, Mode.normal, p.time, p.confidence⟩

end SmartPollingAnalyzer

namespace UseSmartPolling

/-- JavaScript `Math.round`: round to the nearest integer, halves toward
positive infinity. -/
def jsRound (q : ℚ) : ℚ := ((⌊q + 1 / 2⌋ : ℤ) : ℚ)

/-- The band filter of the hook:
`interval >= 4 * 60 * 1000 && interval <= 6 * 60 * 1000`. -/
def isReasonable (g : ℚ) : Bool :=
  decide (4 * 60 * 1000 ≤ g) && decide (g ≤ 6 * 60 * 1000)

/-- The gaps pushed onto `intervals` in `calculateReadingInterval`: gaps
between consecutive entries of `sortedReadings.slice(0, Math.min(10, length))`
surviving the 4-to-6-minute band filter. -/
def hookFilteredGaps (readings : List CGMReading) : List ℚ :=
  (adjacentGaps ((sortByTimeDesc readings).take 10)).filter isReasonable

/-- `calculateReadingInterval` from useSmartPolling.ts: the fallback below 2
readings or when no gap survives the band filter, otherwise
`Math.round` of the MEAN of the surviving gaps (not their median). -/
def calculateReadingInterval (fallbackIntervalMs : ℚ)
    (readings : List CGMReading) : ℚ :=
  if readings.length < 2 then fallbackIntervalMs
  else if (hookFilteredGaps readings).length = 0 then fallbackIntervalMs
  else jsRound (SmartPollingAnalyzer.gapsMean (hookFilteredGaps readings))

/-- The staleness correction of `scheduleNextUpdate` (lines 97-103): when the
target is in the past, add `Math.ceil(-msUntilUpdate / estimatedInterval)`
whole intervals to it; otherwise keep it. -/
def correctedTarget (target now est : ℚ) : ℚ :=
  if target - now < 0 then target + ((⌈(now - target) / est⌉ : ℤ) : ℚ) * est
  else target

/-- The delay armed by `scheduleNextUpdate`: time until the (corrected)
target plus the fixed 30-second buffer (line 106). -/
def scheduleDelay (target now est : ℚ) : ℚ :=
  (correctedTarget target now est - now) + 30 * 1000

/-- The outcome of one invocation of the `onUpdate` callback: a normal
return, a synchronous throw, or an asynchronous rejection of a returned
promise that nobody awaits. -/
inductive Outcome where
  | ok
  | throwsSync
  | rejectsAsync
deriving DecidableEq

/-- The timer-related state of one `useSmartPolling` instance together with
the event loop timer table: `liveTimeouts` / `liveIntervals` are the armed,
not yet fired, not yet cleared timer ids; `timeoutRef` / `countdownRef` are
the refs of the hook; `nextExpectedRef` mirrors `nextExpectedRef.current`;
`nextId` produces fresh timer ids. The purely observational pieces of state
(`timeUntilNext`, `lastUpdate`) are not modelled. -/
structure SchedulerState where
  liveTimeouts : List ℕ
  liveIntervals : List ℕ
  timeoutRef : Option ℕ
  countdownRef : Option ℕ
  nextExpectedRef : Option ℚ
  nextId : ℕ
deriving DecidableEq

/-- The state before mount: no timers, empty refs. -/
def initState : SchedulerState :=
  ⟨[], [], none, none, none, 0⟩

/-- `clearTimers`: `clearTimeout` on the ref-held timeout and `clearInterval`
on the ref-held countdown, then null both refs. Clearing an id that already
fired is a no-op, like in JavaScript. -/
def clearTimers (s : SchedulerState) : SchedulerState :=
  let s1 :=
    match s.timeoutRef with
    | some id =>
      { s with liveTimeouts := s.liveTimeouts.erase id, timeoutRef := none }
    | none => s
  match s1.countdownRef with
  | some id =>
    { s1 with liveIntervals := s1.liveIntervals.erase id, countdownRef := none }
  | none => s1

/-- The arming half of `scheduleNextUpdate`: one `setTimeout` for the update
and one `setInterval` for the countdown, both ids stored in the refs. -/
def armTimers (s : SchedulerState) : SchedulerState :=
  { s with
    liveTimeouts := s.nextId :: s.liveTimeouts
    timeoutRef := some s.nextId
    liveIntervals := (s.nextId + 1) :: s.liveIntervals
    countdownRef := some (s.nextId + 1)
    nextId := s.nextId + 2 }

/-- `scheduleNextUpdate`: clear both timers first, return early when
`nextExpectedRef.current` is null, otherwise apply the staleness correction,
store the corrected target and arm exactly one timeout (plus the countdown
interval). -/
def scheduleNextUpdate (now est : ℚ) (s : SchedulerState) : SchedulerState :=
  let s1 := clearTimers s
  match s1.nextExpectedRef with
  | none => s1
  | some target =>
    armTimers { s1 with nextExpectedRef := some (correctedTarget target now est) }

/-- The body of the `setTimeout` callback (lines 111-121): the fired timer is
consumed; `performUpdate` runs the user callback; a synchronous throw aborts
the rest of the body, otherwise `nextExpectedRef` is advanced by one interval
and `scheduleNextUpdate` re-arms. A fire on a timer that is no longer both
live and ref-held does nothing. -/
def fireTimeout (now est : ℚ) (outcome : Outcome) (s : SchedulerState) :
    SchedulerState :=
  match s.timeoutRef with
  | some id =>
    if id ∈ s.liveTimeouts then
      let s1 := { s with liveTimeouts := s.liveTimeouts.erase id }
      match outcome with
      | Outcome.throwsSync => s1
      | _ =>
        let s2 :=
          match s1.nextExpectedRef with
          | some t => { s1 with nextExpectedRef := some (t + est) }
          | none => s1
        scheduleNextUpdate now est s2
    else s
  | none => s

/-- The events that drive the scheduler: effect-triggered start, new external
data (which stores a fresh expected time and re-arms), a timer fire with the
callback outcome, and unmount/stop. -/
inductive Event where
  | start (now est : ℚ)
  | newData (t now est : ℚ)
  | fire (now est : ℚ) (outcome : Outcome)
  | stop

/-- One event step of the scheduler state machine. -/
def step : Event → SchedulerState → SchedulerState
  | Event.start now est, s => scheduleNextUpdate now est s
  | Event.newData t now est, s =>
    scheduleNextUpdate now est { s with nextExpectedRef := some t }
  | Event.fire now est o, s => fireTimeout now est o s
  | Event.stop, s => clearTimers s

/-- Run a sequence of events from the initial state. -/
def run (events : List Event) : SchedulerState :=
  events.foldl (fun s e => step e s) initState

/-- The timer discipline invariant: at most one live primary timeout, at most
one live countdown interval, and every live timer id is the one held by the
corresponding ref. -/
def TimerInv (s : SchedulerState) : Prop :=
  s.liveTimeouts.length ≤ 1 ∧ s.liveIntervals.length ≤ 1 ∧
  (∀ id ∈ s.liveTimeouts, s.timeoutRef = some id) ∧
  (∀ id ∈ s.liveIntervals, s.countdownRef = some id)

end UseSmartPolling

/-- Modelled from the spec (section 4.2 Confidence Scorer), as the claim
states it: the coefficient of variation computed over the same band-filtered
recent gap set used by the interval estimator, clamped to the interval from
0.2 to 1; compared below against the code, which skips the band filter. -/
noncomputable def scoreConfidenceSpecFiltered (readings : List CGMReading) : ℝ :=
  if readings.length < 3 then 0.5
  else if (SmartPollingAnalyzer.filteredRecentGaps readings).length = 0 then 0.5
  else
    max 0.2 (min 1 (1 -
      Real.sqrt ((SmartPollingAnalyzer.gapsVariance
          (SmartPollingAnalyzer.filteredRecentGaps readings) : ℚ) : ℝ) /
        ((SmartPollingAnalyzer.gapsMean
          (SmartPollingAnalyzer.filteredRecentGaps readings) : ℚ) : ℝ)))

/-- A perfectly regular history: samples at 0, 5 and 10 minutes. -/
def histRegular : List CGMReading := [⟨600000, 100⟩, ⟨300000, 105⟩, ⟨0, 110⟩]

/-- A history whose recent gaps are 330, 240 and 240 seconds: all survive the
4-to-6-minute band, the mean (270 seconds) differs from the median (240). -/
def histMeanNotMedian : List CGMReading :=
  [⟨810000, 100⟩, ⟨480000, 101⟩, ⟨240000, 102⟩, ⟨0, 103⟩]

/-- A history with one extreme 40-minute gap amid 5-minute gaps: the band
filter drops the outlier, so filtered and unfiltered gap statistics differ. -/
def histOutlier : List CGMReading :=
  [⟨3000000, 100⟩, ⟨2700000, 101⟩, ⟨300000, 102⟩, ⟨0, 103⟩]

/-- A history with gaps 340 and 260 seconds: same mean gap as `histRegular`
(300 seconds) but positive variance. -/
def histSpread : List CGMReading := [⟨600000, 100⟩, ⟨260000, 101⟩, ⟨0, 102⟩]

/-- A single-sample history. -/
def histSingle : List CGMReading := [⟨0, 100⟩]

/-- A history whose gaps (100 seconds each) all fall below the plausible
band, so no gap survives filtering. -/
def histSubBand : List CGMReading := [⟨200000, 100⟩, ⟨100000, 101⟩, ⟨0, 102⟩]

open SmartPollingAnalyzer UseSmartPolling

lemma correctedTarget_of_past {target now est : ℚ} (hest : 0 < est)
    (hpast : target < now) :
    now ≤ correctedTarget target now est ∧
    correctedTarget target now est < now + est ∧
    ∃ k : ℤ, 0 < k ∧ correctedTarget target now est = target + k * est := by
  have hneg : target - now < 0 := by linarith
  have hx : (0 : ℚ) < (now - target) / est := div_pos (by linarith) hest
  set k : ℤ := ⌈(now - target) / est⌉ with hk
  have hkpos : 0 < k := Int.ceil_pos.mpr hx
  have hle : (now - target) / est ≤ (k : ℚ) := Int.le_ceil _
  have hlt : (k : ℚ) < (now - target) / est + 1 := Int.ceil_lt_add_one _
  have h1 : now - target ≤ (k : ℚ) * est := (div_le_iff₀ hest).mp hle
  have h3 : (k : ℚ) - 1 < (now - target) / est := by linarith
  have h4 : ((k : ℚ) - 1) * est < now - target := (lt_div_iff₀ hest).mp h3
  rw [sub_mul, one_mul] at h4
  unfold correctedTarget
  rw [if_pos hneg]
  refine ⟨by linarith, by linarith, k, hkpos, rfl⟩

lemma correctedTarget_of_future (target now est : ℚ) (h : now ≤ target) :
    correctedTarget target now est = target := by
  unfold correctedTarget
  rw [if_neg (by linarith)]

unseal Rat.mul Rat.add Rat.sub Rat.inv Rat.ofScientific in
/-- C2 counterexample: take a single-sample history whose sample is 20
minutes old (sample at 0, `now` = 1200000) and the default 5-minute interval.
`predictNextReading` returns 300000, a time 15 minutes in the past, with no
staleness correction; and the staleness correction of `scheduleNextUpdate`
advances the candidate 300000 exactly to `now` = 1200000, which is not
strictly in the future. -/
theorem C2_counterexample :
    correctedTarget 300000 1200000 300000 = 1200000 ∧
    ¬ (1200000 < correctedTarget 300000 1200000 300000) ∧
    (predictNextReading histSingle).time = some 300000 ∧
    ¬ ((300000 : ℚ) > 1200000) := by
  refine ⟨?_, ?_, ?_, by norm_num⟩
  · decide
  · decide
  · simp [predictNextReading, histSingle]
    decide

/-- C2 (amended): `predictNextReading` itself applies no staleness
correction; the correction lives in `scheduleNextUpdate`, which advances a
past candidate by the least positive whole number of intervals that makes it
not earlier than `now` — so the corrected candidate can land exactly on
`now` (whenever the staleness is an exact multiple of the interval, as in
the 20-minute-old-sample, 5-minute-interval case), and is strictly in the
future otherwise. -/
theorem C2_staleness_correction (target now est : ℚ) (hest : 0 < est)
    (hpast : target < now) :
    now ≤ correctedTarget target now est ∧
    correctedTarget target now est < now + est ∧
    ∃ k : ℤ, 0 < k ∧ correctedTarget target now est = target + k * est :=
  correctedTarget_of_past hest hpast

/-- C2 witness: the amended staleness bounds at the concrete counterexample
input (candidate 300000, now 1200000, interval 300000). -/
theorem C2_staleness_correction_witness :
    (1200000 : ℚ) ≤ correctedTarget 300000 1200000 300000 ∧
    correctedTarget 300000 1200000 300000 < 1200000 + 300000 ∧
    ∃ k : ℤ, 0 < k ∧ correctedTarget 300000 1200000 300000 = 300000 + k * 300000 :=
  C2_staleness_correction 300000 1200000 300000 (by norm_num) (by norm_num)

unseal Rat.mul Rat.add Rat.sub Rat.inv Rat.ofScientific in
lemma calculateReadingInterval_histRegular :
    calculateReadingInterval 300000 histRegular = 300000 := by decide

unseal Rat.mul Rat.add Rat.sub Rat.inv Rat.ofScientific in
lemma scheduleDelay_regular_scenario :
    scheduleDelay (600000 + 300000) 600000 300000 = 330000 := by decide

/-- C6: the delay armed by `scheduleNextUpdate` for a tick equals
`max 0 (nextArrival - now)` plus the fixed 30-second buffer, where
`nextArrival` is the (staleness-corrected) predicted arrival stored in
`nextExpectedRef` when the timer is armed; and in the regular scenario with
samples at 0, 5 and 10 minutes and `now` at 10 minutes, the estimated
interval is 5 minutes and the armed delay is 5 minutes 30 seconds. -/
theorem C6_armed_delay :
    (∀ target now est : ℚ, 0 < est →
      scheduleDelay target now est =
        max 0 (correctedTarget target now est - now) + 30 * 1000) ∧
    calculateReadingInterval 300000 histRegular = 300000 ∧
    scheduleDelay (600000 + 300000) 600000 300000 = 330000 := by
  refine ⟨?_, calculateReadingInterval_histRegular, scheduleDelay_regular_scenario⟩
  intro target now est hest
  by_cases h : target < now
  · have hb := (correctedTarget_of_past hest h).1
    unfold scheduleDelay
    rw [max_eq_right (by linarith)]
  · have hb := correctedTarget_of_future target now est (le_of_not_lt h)
    unfold scheduleDelay
    rw [hb, max_eq_right (by linarith)]

/-- C6 witness: the delay formula instantiated at the regular scenario
(target 900000, now 600000, interval 300000) together with the concrete
5-minute-30-second delay. -/
theorem C6_armed_delay_witness :
    scheduleDelay 900000 600000 300000 =
      max 0 (correctedTarget 900000 600000 300000 - 600000) + 30 * 1000 ∧
    calculateReadingInterval 300000 histRegular = 300000 ∧
    scheduleDelay (600000 + 300000) 600000 300000 = 330000 :=
  ⟨C6_armed_delay.1 900000 600000 300000 (by norm_num),
   C6_armed_delay.2.1, C6_armed_delay.2.2⟩

/-- C7: with fewer than 2 samples, or when no recent gap survives the
plausibility band filter, both interval estimators return their configured
default (the fixed 5-minute `DEFAULT_CGM_INTERVAL` for
`getAverageInterval`, the `fallbackIntervalMs` parameter for
`calculateReadingInterval`). -/
theorem C7_default_fallback (readings : List CGMReading) (fb : ℚ) :
    (readings.length < 2 →
      getAverageInterval readings = DEFAULT_CGM_INTERVAL) ∧
    (filteredRecentGaps readings = [] →
      getAverageInterval readings = DEFAULT_CGM_INTERVAL) ∧
    (readings.length < 2 → calculateReadingInterval fb readings = fb) ∧
    (hookFilteredGaps readings = [] → calculateReadingInterval fb readings = fb) := by
  refine ⟨?_, ?_, ?_, ?_⟩
  · intro h
    unfold getAverageInterval
    rw [if_pos h]
  · intro h
    unfold getAverageInterval
    by_cases h2 : readings.length < 2
    · rw [if_pos h2]
    · rw [if_neg h2]
      simp [h]
  · intro h
    unfold calculateReadingInterval
    rw [if_pos h]
  · intro h
    unfold calculateReadingInterval
    by_cases h2 : readings.length < 2
    · rw [if_pos h2]
    · rw [if_neg h2]
      simp [h]

unseal Rat.mul Rat.add Rat.sub Rat.inv Rat.ofScientific in
/-- C7 witness: the empty history, the single-sample history and a history
whose gaps all fall below the band each yield the default on both
estimators. -/
theorem C7_default_fallback_witness :
    getAverageInterval [] = DEFAULT_CGM_INTERVAL ∧
    getAverageInterval histSingle = DEFAULT_CGM_INTERVAL ∧
    getAverageInterval histSubBand = DEFAULT_CGM_INTERVAL ∧
    calculateReadingInterval 300000 [] = 300000 ∧
    calculateReadingInterval 300000 histSingle = 300000 ∧
    calculateReadingInterval 300000 histSubBand = 300000 :=
  ⟨(C7_default_fallback [] 300000).1 (by decide),
   (C7_default_fallback histSingle 300000).1 (by decide),
   (C7_default_fallback histSubBand 300000).2.1 (by decide),
   (C7_default_fallback [] 300000).2.2.1 (by decide),
   (C7_default_fallback histSingle 300000).2.2.1 (by decide),
   (C7_default_fallback histSubBand 300000).2.2.2 (by decide)⟩

lemma mem_filteredRecentGaps_band {readings : List CGMReading} {g : ℚ}
    (h : g ∈ filteredRecentGaps readings) :
    3 * 60 * 1000 ≤ g ∧ g ≤ 8 * 60 * 1000 := by
  have := List.of_mem_filter h
  simpa [isPlausible] using this

lemma mem_hookFilteredGaps_band {readings : List CGMReading} {g : ℚ}
    (h : g ∈ hookFilteredGaps readings) :
    4 * 60 * 1000 ≤ g ∧ g ≤ 6 * 60 * 1000 := by
  have := List.of_mem_filter h
  simpa [isReasonable] using this

lemma getD_mem_of_lt {l : List ℚ} {i : ℕ} (h : i < l.length) :
    l.getD i 0 ∈ l := by
  rw [List.getD_eq_getElem l 0 h]
  exact List.getElem_mem h

lemma middleOf_bounds {l : List ℚ} {lo hi : ℚ} (hne : l ≠ [])
    (h : ∀ x ∈ l, lo ≤ x ∧ x ≤ hi) :
    lo ≤ middleOf l ∧ middleOf l ≤ hi := by
  have hlen : 0 < l.length := List.length_pos.mpr hne
  have hmid : l.length / 2 < l.length := Nat.div_lt_self hlen (by norm_num)
  unfold middleOf
  by_cases hpar : l.length % 2 = 0
  · rw [if_pos hpar]
    have hmid1 : l.length / 2 - 1 < l.length := lt_of_le_of_lt (Nat.sub_le _ _) hmid
    have ha := h _ (getD_mem_of_lt hmid1)
    have hb := h _ (getD_mem_of_lt hmid)
    constructor
    · linarith [ha.1, hb.1]
    · linarith [ha.2, hb.2]
  · rw [if_neg hpar]
    exact h _ (getD_mem_of_lt hmid)

lemma gapsMean_bounds {l : List ℚ} {lo hi : ℚ} (hne : l ≠ [])
    (h : ∀ x ∈ l, lo ≤ x ∧ x ≤ hi) :
    lo ≤ gapsMean l ∧ gapsMean l ≤ hi := by
  have hlen : 0 < l.length := List.length_pos.mpr hne
  have hlenq : (0 : ℚ) < (l.length : ℚ) := by exact_mod_cast hlen
  have hsum_le : l.sum ≤ l.length • hi :=
    List.sum_le_card_nsmul l hi (fun x hx => (h x hx).2)
  have hle_sum : l.length • lo ≤ l.sum :=
    List.card_nsmul_le_sum l lo (fun x hx => (h x hx).1)
  rw [nsmul_eq_mul] at hsum_le hle_sum
  unfold gapsMean
  constructor
  · rw [le_div_iff₀ hlenq]
    linarith
  · rw [div_le_iff₀ hlenq]
    linarith

lemma jsRound_bounds (lo hi : ℤ) {q : ℚ} (h1 : (lo : ℚ) ≤ q) (h2 : q ≤ (hi : ℚ)) :
    (lo : ℚ) ≤ jsRound q ∧ jsRound q ≤ (hi : ℚ) := by
  have hlo : ⌊(lo : ℚ) + 1 / 2⌋ = lo := by
    rw [Int.floor_eq_iff]
    constructor
    · linarith
    · linarith
  have hhi : ⌊(hi : ℚ) + 1 / 2⌋ = hi := by
    rw [Int.floor_eq_iff]
    constructor
    · linarith
    · linarith
  have hmono1 : ⌊(lo : ℚ) + 1 / 2⌋ ≤ ⌊q + 1 / 2⌋ := Int.floor_le_floor (by linarith)
  have hmono2 : ⌊q + 1 / 2⌋ ≤ ⌊(hi : ℚ) + 1 / 2⌋ := Int.floor_le_floor (by linarith)
  rw [hlo] at hmono1
  rw [hhi] at hmono2
  unfold jsRound
  exact ⟨by exact_mod_cast hmono1, by exact_mod_cast hmono2⟩

/-- C9: each estimator's output lies inside its own plausibility band:
`getAverageInterval` always returns a duration between 3 and 8 minutes (its
median over band-filtered gaps as well as its 5-minute default lie in the
band), and `calculateReadingInterval` returns a duration between 4 and 6
minutes whenever its configured fallback lies in that band. -/
theorem C9_estimates_stay_in_band (readings : List CGMReading) (fb : ℚ) :
    (3 * 60 * 1000 ≤ getAverageInterval readings ∧
      getAverageInterval readings ≤ 8 * 60 * 1000) ∧
    (4 * 60 * 1000 ≤ fb → fb ≤ 6 * 60 * 1000 →
      4 * 60 * 1000 ≤ calculateReadingInterval fb readings ∧
      calculateReadingInterval fb readings ≤ 6 * 60 * 1000) := by
  constructor
  · unfold getAverageInterval
    split_ifs with h2 hz
    · unfold DEFAULT_CGM_INTERVAL
      norm_num
    · unfold DEFAULT_CGM_INTERVAL
      norm_num
    · have hne : (filteredRecentGaps readings).insertionSort (· ≤ ·) ≠ [] := by
        intro hcon
        apply hz
        have hlen := List.length_insertionSort (· ≤ ·) (filteredRecentGaps readings)
        rw [hcon] at hlen
        simpa using hlen.symm
      have hmem : ∀ x ∈ (filteredRecentGaps readings).insertionSort (· ≤ ·),
          3 * 60 * 1000 ≤ x ∧ x ≤ 8 * 60 * 1000 := by
        intro x hx
        exact mem_filteredRecentGaps_band ((List.mem_insertionSort _).mp hx)
      exact middleOf_bounds hne hmem
  · intro hlo hhi
    unfold calculateReadingInterval
    split_ifs with h2 hz
    · exact ⟨hlo, hhi⟩
    · exact ⟨hlo, hhi⟩
    · have hne : hookFilteredGaps readings ≠ [] := by
        intro hcon
        rw [hcon] at hz
        exact hz rfl
      have hmean := gapsMean_bounds hne (fun x hx => mem_hookFilteredGaps_band hx)
      have hjs := jsRound_bounds 240000 360000
        (show ((240000 : ℤ) : ℚ) ≤ gapsMean (hookFilteredGaps readings) by
          norm_num
          linarith [hmean.1])
        (show gapsMean (hookFilteredGaps readings) ≤ ((360000 : ℤ) : ℚ) by
          norm_num
          linarith [hmean.2])
      constructor
      · have h := hjs.1
        norm_num at h
        linarith
      · have h := hjs.2
        norm_num at h
        linarith

lemma length_adjacentGaps (l : List CGMReading) :
    (adjacentGaps l).length = l.length - 1 := by
  simp [adjacentGaps, List.length_zip]

lemma length_recentGaps (readings : List CGMReading) :
    (recentGaps readings).length = min 5 (readings.length - 1) := by
  simp [recentGaps, List.length_take, length_adjacentGaps, sortByTimeDesc,
    List.length_insertionSort]

lemma recentGaps_length_ne_zero {readings : List CGMReading}
    (h : 3 ≤ readings.length) : ¬ (recentGaps readings).length = 0 := by
  rw [length_recentGaps]
  omega

/-- C1 (amended): `SmartPollingAnalyzer.getAverageInterval` aggregates the
surviving gaps by their median — it agrees with the middle (mean of the two
middles for an even count) of ANY ascending sorted permutation of the
band-filtered recent gap set — while the hook estimator
`calculateReadingInterval` cited alongside it aggregates by the rounded MEAN
of its surviving gaps instead. -/
theorem C1_median_aggregation :
    (∀ (readings : List CGMReading) (l : List ℚ), 2 ≤ readings.length →
      filteredRecentGaps readings ≠ [] →
      l.Perm (filteredRecentGaps readings) → l.Sorted (· ≤ ·) →
      getAverageInterval readings = middleOf l) ∧
    (∀ (fb : ℚ) (readings : List CGMReading), 2 ≤ readings.length →
      hookFilteredGaps readings ≠ [] →
      calculateReadingInterval fb readings =
        jsRound (gapsMean (hookFilteredGaps readings))) := by
  constructor
  · intro readings l h2 hz hperm hsort
    unfold getAverageInterval
    rw [if_neg (by omega), if_neg (by simpa [List.length_eq_zero] using hz)]
    have heq : l = (filteredRecentGaps readings).insertionSort (· ≤ ·) :=
      List.eq_of_perm_of_sorted
        (hperm.trans (List.perm_insertionSort (· ≤ ·) _).symm)
        hsort (List.sorted_insertionSort (· ≤ ·) _)
    rw [median, heq]
  · intro fb readings h2 hz
    unfold calculateReadingInterval
    rw [if_neg (by omega), if_neg (by simpa [List.length_eq_zero] using hz)]

unseal Rat.mul Rat.add Rat.sub Rat.inv Rat.ofScientific in
/-- C1 counterexample: on the history with surviving gaps 330000, 240000 and
240000 milliseconds, the hook estimator cited by the claim returns the
rounded mean 270000, not the median 240000 of the surviving gaps. -/
theorem C1_counterexample :
    hookFilteredGaps histMeanNotMedian = [330000, 240000, 240000] ∧
    calculateReadingInterval 300000 histMeanNotMedian = 270000 ∧
    median (hookFilteredGaps histMeanNotMedian) = 240000 ∧
    calculateReadingInterval 300000 histMeanNotMedian ≠
      median (hookFilteredGaps histMeanNotMedian) := by
  refine ⟨by decide, by decide, by decide, by decide⟩

unseal Rat.mul Rat.add Rat.sub Rat.inv Rat.ofScientific in
/-- C1 witness: the amended statement instantiated at the same concrete
history for both estimators; the sorted permutation taken for the median is
the explicit ascending list. -/
theorem C1_median_aggregation_witness :
    getAverageInterval histMeanNotMedian = middleOf [240000, 240000, 330000] ∧
    calculateReadingInterval 300000 histMeanNotMedian =
      jsRound (gapsMean (hookFilteredGaps histMeanNotMedian)) :=
  ⟨C1_median_aggregation.1 histMeanNotMedian [240000, 240000, 330000]
    (by decide) (by decide) (by decide) (by decide),
   C1_median_aggregation.2 300000 histMeanNotMedian (by decide) (by decide)⟩

/-- C9 witness: the band bounds instantiated at the regular history and at
the empty history (where the default and the in-band fallback are returned),
with the fallback hypotheses discharged at 5 minutes. -/
theorem C9_estimates_stay_in_band_witness :
    ((3 * 60 * 1000 ≤ getAverageInterval histRegular ∧
      getAverageInterval histRegular ≤ 8 * 60 * 1000) ∧
    (4 * 60 * 1000 ≤ calculateReadingInterval 300000 histRegular ∧
      calculateReadingInterval 300000 histRegular ≤ 6 * 60 * 1000)) ∧
    (3 * 60 * 1000 ≤ getAverageInterval [] ∧
      getAverageInterval [] ≤ 8 * 60 * 1000) :=
  ⟨⟨(C9_estimates_stay_in_band histRegular 300000).1,
    (C9_estimates_stay_in_band histRegular 300000).2 (by norm_num) (by norm_num)⟩,
   (C9_estimates_stay_in_band [] 300000).1⟩

lemma calculateConfidence_formula (readings : List CGMReading)
    (h : 3 ≤ readings.length) :
    calculateConfidence readings =
      max 0.2 (min 1 (1 -
        Real.sqrt ((gapsVariance (recentGaps readings) : ℚ) : ℝ) /
          ((gapsMean (recentGaps readings) : ℚ) : ℝ))) := by
  unfold calculateConfidence
  rw [if_neg (by omega), if_neg (recentGaps_length_ne_zero h)]

unseal Rat.mul Rat.add Rat.sub Rat.inv Rat.ofScientific in
lemma recentGaps_histOutlier_mean :
    gapsMean (recentGaps histOutlier) = 1000000 := by decide

unseal Rat.mul Rat.add Rat.sub Rat.inv Rat.ofScientific in
lemma recentGaps_histOutlier_variance :
    gapsVariance (recentGaps histOutlier) = 980000000000 := by decide

unseal Rat.mul Rat.add Rat.sub Rat.inv Rat.ofScientific in
lemma filteredRecentGaps_histOutlier_mean :
    gapsMean (filteredRecentGaps histOutlier) = 300000 := by decide

unseal Rat.mul Rat.add Rat.sub Rat.inv Rat.ofScientific in
lemma filteredRecentGaps_histOutlier_variance :
    gapsVariance (filteredRecentGaps histOutlier) = 0 := by decide

unseal Rat.mul Rat.add Rat.sub Rat.inv Rat.ofScientific in
lemma recentGaps_histOutlier_length_ne_zero :
    ¬ (recentGaps histOutlier).length = 0 := by decide

unseal Rat.mul Rat.add Rat.sub Rat.inv Rat.ofScientific in
lemma filteredRecentGaps_histOutlier_length_ne_zero :
    ¬ (filteredRecentGaps histOutlier).length = 0 := by decide

unseal Rat.mul Rat.add Rat.sub Rat.inv Rat.ofScientific in
/-- C5 counterexample: on the history with recent gaps 300000, 2400000 and
300000 milliseconds, the code computes its coefficient of variation over the
UNfiltered gap set (yielding the clamped floor 0.2), while the formula of
the claim — the same clamp over the band-filtered gap set, whose surviving
gaps 300000 and 300000 have zero variance — yields 1. -/
theorem C5_counterexample :
    calculateConfidence histOutlier = 0.2 ∧
    scoreConfidenceSpecFiltered histOutlier = 1 ∧
    calculateConfidence histOutlier ≠ scoreConfidenceSpecFiltered histOutlier := by
  have hL : calculateConfidence histOutlier = 0.2 := by
    unfold calculateConfidence
    rw [if_neg (by decide), if_neg recentGaps_histOutlier_length_ne_zero]
    rw [recentGaps_histOutlier_mean, recentGaps_histOutlier_variance]
    have hcast : (((980000000000 : ℚ)) : ℝ) = 980000000000 := by norm_num
    have hsq : (800000 : ℝ) ≤ Real.sqrt ((980000000000 : ℚ) : ℝ) := by
      rw [hcast, Real.le_sqrt (by norm_num) (by norm_num)]
      norm_num
    have hm : (((1000000 : ℚ)) : ℝ) = 1000000 := by norm_num
    rw [hm]
    have hdiv : (0.8 : ℝ) ≤ Real.sqrt ((980000000000 : ℚ) : ℝ) / 1000000 := by
      rw [le_div_iff₀ (by norm_num)]
      have h08 : (0.8 : ℝ) * 1000000 = 800000 := by norm_num
      rw [h08]
      exact hsq
    rw [min_eq_right (by linarith)]
    rw [max_eq_left (by linarith)]
  have hR : scoreConfidenceSpecFiltered histOutlier = 1 := by
    unfold scoreConfidenceSpecFiltered
    rw [if_neg (by decide), if_neg filteredRecentGaps_histOutlier_length_ne_zero]
    rw [filteredRecentGaps_histOutlier_mean, filteredRecentGaps_histOutlier_variance]
    have hcast : (((0 : ℚ)) : ℝ) = 0 := by norm_num
    rw [hcast, Real.sqrt_zero]
    norm_num
  refine ⟨hL, hR, ?_⟩
  rw [hL, hR]
  norm_num

/-- C5 (amended): for every history with at least 3 samples, the confidence
score equals `clamp(1 - stddev / mean, 0.2, 1)` where the coefficient of
variation is computed over the UNfiltered recent gap set (the last up to 5
gaps of the time-sorted history, with no plausibility-band filter) — not
over the band-filtered set the estimator uses. -/
theorem C5_confidence_formula (readings : List CGMReading)
    (h : 3 ≤ readings.length) :
    calculateConfidence readings =
      max 0.2 (min 1 (1 -
        Real.sqrt ((gapsVariance (recentGaps readings) : ℚ) : ℝ) /
          ((gapsMean (recentGaps readings) : ℚ) : ℝ))) :=
  calculateConfidence_formula readings h

/-- C5 witness: the amended formula instantiated at the outlier history. -/
theorem C5_confidence_formula_witness :
    calculateConfidence histOutlier =
      max 0.2 (min 1 (1 -
        Real.sqrt ((gapsVariance (recentGaps histOutlier) : ℚ) : ℝ) /
          ((gapsMean (recentGaps histOutlier) : ℚ) : ℝ))) :=
  C5_confidence_formula histOutlier (by decide)

lemma sorted_sortByTimeDesc (l : List CGMReading) :
    List.Sorted byTimeDesc (sortByTimeDesc l) :=
  List.sorted_insertionSort byTimeDesc l

lemma adjacentGaps_nonneg :
    ∀ {l : List CGMReading}, List.Sorted byTimeDesc l →
      ∀ g ∈ adjacentGaps l, 0 ≤ g
  | [], _, g, hg => by simp [adjacentGaps] at hg
  | [a], _, g, hg => by simp [adjacentGaps] at hg
  | a :: b :: t, hs, g, hg => by
    rw [show adjacentGaps (a :: b :: t) =
        (a.timestamp - b.timestamp) :: adjacentGaps (b :: t) from rfl] at hg
    rcases List.mem_cons.mp hg with h | h
    · subst h
      have hab : byTimeDesc a b :=
        List.rel_of_sorted_cons hs b (List.mem_cons_self b t)
      exact sub_nonneg.mpr hab
    · exact adjacentGaps_nonneg hs.of_cons g h

lemma recentGaps_nonneg (readings : List CGMReading) :
    ∀ g ∈ recentGaps readings, 0 ≤ g := fun g hg =>
  adjacentGaps_nonneg (sorted_sortByTimeDesc readings) g (List.mem_of_mem_take hg)

lemma all_zero_of_sum_zero :
    ∀ {l : List ℚ}, (∀ x ∈ l, 0 ≤ x) → l.sum = 0 → ∀ x ∈ l, x = 0
  | [], _, _, x, hx => by simp at hx
  | a :: t, hnn, hsum, x, hx => by
    rw [List.sum_cons] at hsum
    have hta : 0 ≤ a := hnn a (List.mem_cons_self a t)
    have htsum : 0 ≤ t.sum := List.sum_nonneg (fun y hy => hnn y (List.mem_cons_of_mem a hy))
    have ha0 : a = 0 := by linarith
    have ht0 : t.sum = 0 := by linarith
    rcases List.mem_cons.mp hx with h | h
    · rw [h, ha0]
    · exact all_zero_of_sum_zero (fun y hy => hnn y (List.mem_cons_of_mem a hy)) ht0 x h

lemma gapsMean_nonneg {l : List ℚ} (h : ∀ x ∈ l, 0 ≤ x) : 0 ≤ gapsMean l :=
  div_nonneg (List.sum_nonneg h) (Nat.cast_nonneg _)

lemma gapsVariance_eq_zero_of_mean_zero {l : List ℚ} (hnn : ∀ x ∈ l, 0 ≤ x)
    (hne : l ≠ []) (hm : gapsMean l = 0) : gapsVariance l = 0 := by
  have hlen : (l.length : ℚ) ≠ 0 := by
    have hpos := List.length_pos.mpr hne
    exact_mod_cast Nat.pos_iff_ne_zero.mp hpos
  have hsum : l.sum = 0 := by
    unfold gapsMean at hm
    rcases div_eq_zero_iff.mp hm with h | h
    · exact h
    · exact absurd h hlen
  have hall := all_zero_of_sum_zero hnn hsum
  unfold gapsVariance
  rw [hm]
  have hz : (l.map (fun x => (x - 0) ^ 2)).sum = 0 :=
    List.sum_eq_zero (fun y hy => by
      obtain ⟨x, hx, rfl⟩ := List.mem_map.mp hy
      rw [hall x hx]
      ring)
  rw [hz, zero_div]

/-- C8: for two histories of at least 3 samples whose recent gap sets have
the same mean but the first a strictly smaller variance, the confidence score
of the lower-variance history is at least the confidence score of the
higher-variance history. -/
theorem C8_confidence_monotonicity (hist1 hist2 : List CGMReading)
    (hl1 : 3 ≤ hist1.length) (hl2 : 3 ≤ hist2.length)
    (hmean : gapsMean (recentGaps hist1) = gapsMean (recentGaps hist2))
    (hvar : gapsVariance (recentGaps hist1) < gapsVariance (recentGaps hist2)) :
    calculateConfidence hist2 ≤ calculateConfidence hist1 := by
  rw [calculateConfidence_formula hist1 hl1, calculateConfidence_formula hist2 hl2]
  rw [← hmean]
  have hmnn : 0 ≤ gapsMean (recentGaps hist1) :=
    gapsMean_nonneg (recentGaps_nonneg hist1)
  by_cases hm : gapsMean (recentGaps hist1) = 0
  · exfalso
    have hne1 : recentGaps hist1 ≠ [] := by
      intro hcon
      exact recentGaps_length_ne_zero hl1 (by rw [hcon]; rfl)
    have hne2 : recentGaps hist2 ≠ [] := by
      intro hcon
      exact recentGaps_length_ne_zero hl2 (by rw [hcon]; rfl)
    have hv1 : gapsVariance (recentGaps hist1) = 0 :=
      gapsVariance_eq_zero_of_mean_zero (recentGaps_nonneg hist1) hne1 hm
    have hv2 : gapsVariance (recentGaps hist2) = 0 :=
      gapsVariance_eq_zero_of_mean_zero (recentGaps_nonneg hist2) hne2 (hmean ▸ hm)
    rw [hv1, hv2] at hvar
    exact lt_irrefl 0 hvar
  · have hmpos : (0 : ℚ) < gapsMean (recentGaps hist1) :=
      lt_of_le_of_ne hmnn (Ne.symm hm)
    have hmposR : (0 : ℝ) < ((gapsMean (recentGaps hist1) : ℚ) : ℝ) := by
      exact_mod_cast hmpos
    have hsq : Real.sqrt ((gapsVariance (recentGaps hist1) : ℚ) : ℝ) ≤
        Real.sqrt ((gapsVariance (recentGaps hist2) : ℚ) : ℝ) :=
      Real.sqrt_le_sqrt (by exact_mod_cast hvar.le)
    have hdiv : Real.sqrt ((gapsVariance (recentGaps hist1) : ℚ) : ℝ) /
          ((gapsMean (recentGaps hist1) : ℚ) : ℝ) ≤
        Real.sqrt ((gapsVariance (recentGaps hist2) : ℚ) : ℝ) /
          ((gapsMean (recentGaps hist1) : ℚ) : ℝ) := by
      apply div_le_div_of_nonneg_right hsq (le_of_lt hmposR)
    exact max_le_max (le_refl _) (min_le_min (le_refl _) (by linarith))

unseal Rat.mul Rat.add Rat.sub Rat.inv Rat.ofScientific in
/-- C8 witness: the regular history (gaps 300000 and 300000, variance 0)
scores at least as much confidence as the spread history (gaps 340000 and
260000, same mean 300000, variance 1600000000). -/
theorem C8_confidence_monotonicity_witness :
    calculateConfidence histSpread ≤ calculateConfidence histRegular :=
  C8_confidence_monotonicity histRegular histSpread (by decide) (by decide)
    (by decide) (by decide)

/-- C10: `getPollingStrategy` always returns one of exactly two pairs —
45000 ms with intensive mode or 300000 ms with normal mode — and it returns
the intensive pair exactly when a predicted time exists, the confidence is
at least 0.3, and the predicted time is within 2 minutes of `now` in either
direction. -/
theorem C10_strategy_dichotomy (readings : List CGMReading) (now : ℚ) :
    (((getPollingStrategy readings now).nextInterval = 45000 ∧
      (getPollingStrategy readings now).mode = Mode.intensive) ∨
     ((getPollingStrategy readings now).nextInterval = 300000 ∧
      (getPollingStrategy readings now).mode = Mode.normal)) ∧
    ((getPollingStrategy readings now).mode = Mode.intensive ↔
      (∃ t, (predictNextReading readings).time = some t ∧
        (0.3 : ℝ) ≤ (predictNextReading readings).confidence ∧
        |t - now| ≤ 2 * 60 * 1000)) := by
  rcases htime : (predictNextReading readings).time with _ | t
  · have hgs : getPollingStrategy readings now =
        ⟨NORMAL_POLLING, Mode.normal, (predictNextReading readings).time,
          (predictNextReading readings).confidence⟩ := by
      simp only [getPollingStrategy, htime]
    rw [hgs]
    refine ⟨Or.inr ⟨?_, rfl⟩, ?_⟩
    · norm_num [NORMAL_POLLING]
    · simp [htime]
  · by_cases hc : (predictNextReading readings).confidence < 0.3
    · have hgs : getPollingStrategy readings now =
          ⟨NORMAL_POLLING, Mode.normal, (predictNextReading readings).time,
            (predictNextReading readings).confidence⟩ := by
        simp only [getPollingStrategy, htime]
        rw [if_pos hc]
      rw [hgs]
      refine ⟨Or.inr ⟨?_, rfl⟩, ?_⟩
      · norm_num [NORMAL_POLLING]
      · simp only [htime]
        constructor
        · intro hmode
          exact absurd hmode (by simp)
        · rintro ⟨u, hu, hconf, _⟩
          exact absurd hconf (not_le.mpr hc)
    · by_cases hw : |t - now| ≤ INTENSIVE_WINDOW
      · have hgs : getPollingStrategy readings now =
            ⟨INTENSIVE_POLLING, Mode.intensive, (predictNextReading readings).time,
              (predictNextReading readings).confidence⟩ := by
          simp only [getPollingStrategy, htime]
          rw [if_neg hc, if_pos hw]
        rw [hgs]
        refine ⟨Or.inl ⟨?_, rfl⟩, ?_⟩
        · norm_num [INTENSIVE_POLLING]
        · simp only [htime]
          constructor
          · intro _
            refine ⟨t, rfl, not_lt.mp hc, ?_⟩
            have hwin : INTENSIVE_WINDOW = 2 * 60 * 1000 := rfl
            rw [hwin] at hw
            exact hw
          · intro _
            trivial
      · have hgs : getPollingStrategy readings now =
            ⟨NORMAL_POLLING, Mode.normal, (predictNextReading readings).time,
              (predictNextReading readings).confidence⟩ := by
          simp only [getPollingStrategy, htime]
          rw [if_neg hc, if_neg hw]
        rw [hgs]
        refine ⟨Or.inr ⟨?_, rfl⟩, ?_⟩
        · norm_num [NORMAL_POLLING]
        · simp only [htime]
          constructor
          · intro hmode
            exact absurd hmode (by simp)
          · rintro ⟨u, hu, _, habs⟩
            exfalso
            cases hu
            apply hw
            have hwin : INTENSIVE_WINDOW = 2 * 60 * 1000 := rfl
            rw [hwin]
            exact habs

lemma erase_all_eq {l : List ℕ} {r : ℕ} (hlen : l.length ≤ 1)
    (hall : ∀ x ∈ l, x = r) : l.erase r = [] := by
  match l with
  | [] => rfl
  | [a] =>
    have ha : a = r := hall a (List.mem_singleton.mpr rfl)
    subst ha
    simp
  | a :: b :: t => simp at hlen

lemma clearTimers_spec {s : SchedulerState} (h : TimerInv s) :
    (clearTimers s).liveTimeouts = [] ∧ (clearTimers s).liveIntervals = [] ∧
    (clearTimers s).timeoutRef = none ∧ (clearTimers s).countdownRef = none ∧
    (clearTimers s).nextExpectedRef = s.nextExpectedRef ∧
    (clearTimers s).nextId = s.nextId := by
  obtain ⟨lt, li, tr, cr, nx, ni⟩ := s
  obtain ⟨h1, h2, h3, h4⟩ := h
  dsimp only at h1 h2 h3 h4
  rcases tr with _ | r
  · have hlt : lt = [] :=
      List.eq_nil_iff_forall_not_mem.mpr
        (fun a ha => Option.noConfusion (h3 a ha))
    rcases cr with _ | c
    · have hli : li = [] :=
        List.eq_nil_iff_forall_not_mem.mpr
          (fun a ha => Option.noConfusion (h4 a ha))
      subst hlt hli
      exact ⟨rfl, rfl, rfl, rfl, rfl, rfl⟩
    · have hli : li.erase c = [] :=
        erase_all_eq h2 (fun x hx => (Option.some.inj (h4 x hx)).symm)
      subst hlt
      simp [clearTimers, hli]
  · have hlt : lt.erase r = [] :=
      erase_all_eq h1 (fun x hx => (Option.some.inj (h3 x hx)).symm)
    rcases cr with _ | c
    · have hli : li = [] :=
        List.eq_nil_iff_forall_not_mem.mpr
          (fun a ha => Option.noConfusion (h4 a ha))
      subst hli
      simp [clearTimers, hlt]
    · have hli : li.erase c = [] :=
        erase_all_eq h2 (fun x hx => (Option.some.inj (h4 x hx)).symm)
      simp [clearTimers, hlt, hli]

lemma timerInv_of_clear {s : SchedulerState} (h : TimerInv s) :
    TimerInv (clearTimers s) := by
  obtain ⟨e1, e2, _, _, _, _⟩ := clearTimers_spec h
  exact ⟨by rw [e1]; simp, by rw [e2]; simp,
    fun x hx => by rw [e1] at hx; exact absurd hx (List.not_mem_nil x),
    fun x hx => by rw [e2] at hx; exact absurd hx (List.not_mem_nil x)⟩

lemma timerInv_schedule {s : SchedulerState} (h : TimerInv s) (now est : ℚ) :
    TimerInv (scheduleNextUpdate now est s) := by
  obtain ⟨e1, e2, e3, e4, e5, e6⟩ := clearTimers_spec h
  unfold scheduleNextUpdate
  rcases hn : (clearTimers s).nextExpectedRef with _ | t
  · simp only [hn]
    exact timerInv_of_clear h
  · simp only [hn]
    unfold armTimers TimerInv
    refine ⟨?_, ?_, ?_, ?_⟩ <;> simp [e1, e2]

lemma schedule_arms {s : SchedulerState} (h : TimerInv s) (now est : ℚ) {t : ℚ}
    (hn : s.nextExpectedRef = some t) :
    (scheduleNextUpdate now est s).liveTimeouts.length = 1 ∧
    (scheduleNextUpdate now est s).timeoutRef ≠ none := by
  obtain ⟨e1, e2, e3, e4, e5, e6⟩ := clearTimers_spec h
  have hn2 : (clearTimers s).nextExpectedRef = some t := by rw [e5, hn]
  unfold scheduleNextUpdate
  simp only [hn2]
  unfold armTimers
  simp [e1]

lemma timerInv_eraseLive {s : SchedulerState} (h : TimerInv s) (id : ℕ) :
    TimerInv {s with liveTimeouts := s.liveTimeouts.erase id} := by
  obtain ⟨h1, h2, h3, h4⟩ := h
  exact ⟨le_trans (List.length_erase_le _ _) h1, h2,
    fun x hx => h3 x (List.mem_of_mem_erase hx), fun x hx => h4 x hx⟩

lemma timerInv_fire {s : SchedulerState} (h : TimerInv s) (now est : ℚ)
    (o : Outcome) : TimerInv (fireTimeout now est o s) := by
  obtain ⟨lt, li, tr, cr, nx, ni⟩ := s
  unfold fireTimeout
  rcases tr with _ | id
  · exact h
  · dsimp only
    by_cases hmem : id ∈ lt
    · rw [if_pos hmem]
      have hInv1 := timerInv_eraseLive h id
      cases o with
      | throwsSync => exact hInv1
      | ok =>
        rcases nx with _ | t
        · exact timerInv_schedule hInv1 now est
        · have hInv2 : TimerInv ⟨lt.erase id, li, some id, cr, some (t + est), ni⟩ :=
            hInv1
          exact timerInv_schedule hInv2 now est
      | rejectsAsync =>
        rcases nx with _ | t
        · exact timerInv_schedule hInv1 now est
        · have hInv2 : TimerInv ⟨lt.erase id, li, some id, cr, some (t + est), ni⟩ :=
            hInv1
          exact timerInv_schedule hInv2 now est
    · rw [if_neg hmem]
      exact h

lemma timerInv_step (e : Event) {s : SchedulerState} (h : TimerInv s) :
    TimerInv (step e s) := by
  cases e with
  | start now est => exact timerInv_schedule h now est
  | newData t now est =>
    have h2 : TimerInv {s with nextExpectedRef := some t} := h
    exact timerInv_schedule h2 now est
  | fire now est o => exact timerInv_fire h now est o
  | stop => exact timerInv_of_clear h

lemma timerInv_foldl :
    ∀ (events : List Event) (s : SchedulerState), TimerInv s →
      TimerInv (events.foldl (fun s e => step e s) s)
  | [], _, h => h
  | e :: rest, _, h => timerInv_foldl rest _ (timerInv_step e h)

lemma timerInv_init : TimerInv initState :=
  ⟨by simp [initState], by simp [initState],
   fun x hx => absurd hx (List.not_mem_nil x),
   fun x hx => absurd hx (List.not_mem_nil x)⟩

/-- C3: after any sequence of start, new-data, timer-fire and stop events,
the scheduler holds at most one live primary timeout (and at most one live
countdown interval), the held ref always names the live timer, and the
clear-before-arm discipline means the clearing half of a re-arm leaves zero
live timeouts — so no instant, inside or between re-arms, has two pending
primary timers. -/
theorem C3_single_pending_timer (events : List Event) :
    TimerInv (run events) ∧ (clearTimers (run events)).liveTimeouts = [] := by
  have hInv := timerInv_foldl events initState timerInv_init
  exact ⟨hInv, (clearTimers_spec hInv).1⟩

unseal Rat.mul Rat.add Rat.sub Rat.inv Rat.ofScientific in
/-- C4 counterexample: from the armed state reached by one new-data event,
a fire whose callback throws synchronously leaves ZERO live timeouts — the
exception aborts the callback body before `scheduleNextUpdate` runs, so no
subsequent tick is scheduled — whereas an asynchronous rejection (which
nobody awaits) leaves the chain armed. -/
theorem C4_counterexample :
    (step (Event.fire 930000 300000 Outcome.throwsSync)
        (run [Event.newData 900000 600000 300000])).liveTimeouts = [] ∧
    (step (Event.fire 930000 300000 Outcome.rejectsAsync)
        (run [Event.newData 900000 600000 300000])).liveTimeouts ≠ [] := by
  refine ⟨by decide, by decide⟩

/-- C4 (amended): when the callback returns normally or rejects
asynchronously (the rejection is fire-and-forget, nothing awaits it), the
fired scheduler re-arms exactly one next timeout; when the callback throws
synchronously the tick body is aborted and no next timer is armed. -/
theorem C4_rearm_unless_throw (s : SchedulerState) (now est : ℚ) (o : Outcome)
    (id : ℕ) (t : ℚ) (ho : o ≠ Outcome.throwsSync) (hInv : TimerInv s)
    (href : s.timeoutRef = some id) (hlive : id ∈ s.liveTimeouts)
    (hnext : s.nextExpectedRef = some t) :
    (fireTimeout now est o s).liveTimeouts.length = 1 ∧
    (fireTimeout now est o s).timeoutRef ≠ none := by
  obtain ⟨lt, li, tr, cr, nx, ni⟩ := s
  dsimp only at href hlive hnext
  subst href hnext
  unfold fireTimeout
  dsimp only
  rw [if_pos hlive]
  have hInv1 := timerInv_eraseLive hInv id
  have hInv2 : TimerInv ⟨lt.erase id, li, some id, cr, some (t + est), ni⟩ := hInv1
  cases o with
  | throwsSync => exact absurd rfl ho
  | ok => exact schedule_arms hInv2 now est rfl
  | rejectsAsync => exact schedule_arms hInv2 now est rfl

unseal Rat.mul Rat.add Rat.sub Rat.inv Rat.ofScientific in
/-- C4 witness: the re-arm guarantee instantiated at the armed state reached
by one new-data event, fired with an asynchronously rejecting callback. -/
theorem C4_rearm_unless_throw_witness :
    (fireTimeout 930000 300000 Outcome.rejectsAsync
        (run [Event.newData 900000 600000 300000])).liveTimeouts.length = 1 ∧
    (fireTimeout 930000 300000 Outcome.rejectsAsync
        (run [Event.newData 900000 600000 300000])).timeoutRef ≠ none :=
  C4_rearm_unless_throw (run [Event.newData 900000 600000 300000])
    930000 300000 Outcome.rejectsAsync 0 900000 (by decide)
    (by
      unfold TimerInv
      exact ⟨by decide, by decide, by decide, by decide⟩)
    (by decide) (by decide) (by decide)

end LoopyWeb
